import Mathlib

/-!
# A shallow embedding of the `lox` bytecode compiler and virtual machine

This file embeds, in Lean, the parts of the `lox` Rust sources that the
verified statements below talk about:

* `src/value.rs`   — the `Value` sum type, its string conversion, equality
  (`PartialEq for Value`) and partial order (`PartialOrd for Value`);
* `src/function.rs` — the `Function` descriptor, code emission (`add_op`,
  `add_jump`, `patch_jump`) and the capture table
  (`add_capture`, `populate_capture`, `get_capture`);
* `src/op.rs`      — the opcode enumeration and its `u8` encoding;
* `src/chunk.rs`   — append/indexed-read/in-place-set buffers (modelled as
  Lean lists);
* `src/vm.rs`      — the VM state and one dispatch step of `VM::run`;
* `src/scanner.rs` + `src/token.rs` — the lazy token scanner;
* `src/nif.rs`     — the name/arity table of native built-ins.

Modelling conventions:

* Rust `Vec` push/pop operate on the back; lists here keep the same order
  (the last element of a Lean list is the top of a Rust stack).
* Rust `u128`/`usize` indices and arities are `Nat`; `f64` numbers are
  modelled as rationals `ℚ` (so the model has no NaN, infinities or signed
  zero; none of the verified statements depend on those).
* Rust `HashMap` is modelled as an association list; `insert` returns the
  previous binding exactly as `HashMap::insert` does.
* A Rust panic (a failing `unwrap`, or an out-of-bounds `Vec::remove`) is
  modelled by `Option.none`; functions that cannot panic are total.
-/

namespace Lox

/-! ## Values and functions (`src/value.rs`, `src/function.rs`)

`Value::Function` holds `(usize, Option<Function>)` and `Function` holds a
capture table whose entries contain `Option<Value>`, so the two types are
mutually recursive, exactly as in the source. -/

mutual

/-- The `Value` enum of `src/value.rs`. -/
inductive Value where
  | nil : Value
  | number (q : ℚ) : Value
  | boolean (b : Bool) : Value
  | string (s : String) : Value
  | function (addr : Nat) (descriptor : Option Function) : Value

/-- The `Function` struct of `src/function.rs`: name, arity, loop flag,
code chunk, return-seen flag, and the capture table
`HashMap<String, (usize, usize, Option<Value>)>` (as an association list). -/
inductive Function where
  | mk (name : String) (arity : Nat) (is_loop : Bool) (codes : List Nat)
       (has_return : Option Bool)
       (captures : List (String × Nat × Nat × Option Value))

end

namespace Function

/-- Field accessor: `Function::name`. -/
def name : Function → String
  | .mk n _ _ _ _ _ => n

/-- Field accessor: `Function::arity`. -/
def arity : Function → Nat
  | .mk _ a _ _ _ _ => a

/-- Field accessor: `Function::is_loop`. -/
def is_loop : Function → Bool
  | .mk _ _ l _ _ _ => l

/-- Field accessor: `Function::codes` (the code chunk's storage). -/
def codes : Function → List Nat
  | .mk _ _ _ c _ _ => c

/-- Field accessor: `Function::has_return`. -/
def has_return : Function → Option Bool
  | .mk _ _ _ _ h _ => h

/-- Field accessor: `Function::captures`. -/
def captures : Function → List (String × Nat × Nat × Option Value)
  | .mk _ _ _ _ _ cs => cs

/-- Source `Function::new`: a fresh named function with the given arity. -/
def new (name : String) (arity : Nat) : Function :=
  .mk name arity false [] (some false) []

/-- Source `Function::new_main`: the top-level unit (`has_return = None`). -/
def new_main (name : String) : Function :=
  .mk name 0 false [] none []

/-- Source `Function::new_loop`: an anonymous loop body (`is_loop = true`). -/
def new_loop (name : String) : Function :=
  .mk name 0 true [] (some false) []

end Function

/-! ## Opcodes (`src/op.rs`) -/

/-- The `OpCode` enum of `src/op.rs`. -/
inductive OpCode where
  | Add | Nil | Not | Pop | Rem | Call | Jump | Less | Loop | Equal
  | Concat | Divide | Negate | Return | Greater | GetLocal | Constant
  | Multiply | NotEqual | SetLocal | DefGlobal | GetGlobal | LessEqual
  | SetGlobal | ClearScope | JumpIfFalse | GetCaptured | MakeClosure
  | SetCaptured | GreaterEqual
  | Invalid
  deriving DecidableEq

namespace OpCode

/-- Source `impl From<OpCode> for u8` of `src/op.rs`. -/
def to_u8 : OpCode → Nat
  | .Add => 0 | .Nil => 1 | .Not => 2 | .Pop => 3 | .Rem => 4 | .Call => 5
  | .Jump => 6 | .Less => 7 | .Loop => 8 | .Equal => 9 | .Concat => 10
  | .Divide => 11 | .Negate => 12 | .Return => 13 | .Greater => 14
  | .GetLocal => 15 | .Constant => 16 | .Multiply => 17 | .NotEqual => 18
  | .SetLocal => 19 | .DefGlobal => 20 | .GetGlobal => 21 | .LessEqual => 22
  | .SetGlobal => 23 | .ClearScope => 24 | .JumpIfFalse => 25
  | .GetCaptured => 26 | .MakeClosure => 27 | .SetCaptured => 28
  | .GreaterEqual => 29
  | .Invalid => 255

/-- Source `impl From<u8> for OpCode` of `src/op.rs` (any other byte is `Invalid`).
`VM::run` applies this to `current as u8`, so the `u8` truncation
(`% 256`) is part of `ofNat`. -/
def of_u8 (n : Nat) : OpCode :=
  match n % 256 with
  | 0 => .Add | 1 => .Nil | 2 => .Not | 3 => .Pop | 4 => .Rem | 5 => .Call
  | 6 => .Jump | 7 => .Less | 8 => .Loop | 9 => .Equal | 10 => .Concat
  | 11 => .Divide | 12 => .Negate | 13 => .Return | 14 => .Greater
  | 15 => .GetLocal | 16 => .Constant | 17 => .Multiply | 18 => .NotEqual
  | 19 => .SetLocal | 20 => .DefGlobal | 21 => .GetGlobal | 22 => .LessEqual
  | 23 => .SetGlobal | 24 => .ClearScope | 25 => .JumpIfFalse
  | 26 => .GetCaptured | 27 => .MakeClosure | 28 => .SetCaptured
  | 29 => .GreaterEqual
  | _ => .Invalid

end OpCode

/-! ## Chunks (`src/chunk.rs`)

`Chunk<T>` is a growable vector; `add` appends and returns the index,
`get` reads, `set` does `storage.remove(address); storage.insert(address,
item)` — which panics when `address` is out of bounds, hence the `Option`. -/

/-- Source `Chunk::set`: in-place replacement at `address`; `none` models the
panic of `Vec::remove` on an out-of-bounds index. -/
def chunkSet (storage : List α) (address : Nat) (item : α) : Option (List α) :=
  if address < storage.length then
    some (storage.take address ++ item :: storage.drop (address + 1))
  else
    none

namespace Function

/-- Source `Function::add_op`: append an opcode word to the code chunk. -/
def add_op (f : Function) (op : OpCode) : Function :=
  .mk f.name f.arity f.is_loop (f.codes ++ [op.to_u8]) f.has_return f.captures

/-- Source `Function::add_address`: append a raw operand word. -/
def add_address (f : Function) (address : Nat) : Function :=
  .mk f.name f.arity f.is_loop (f.codes ++ [address]) f.has_return f.captures

/-- Source `Function::add_jump`: emit `JumpIfFalse` or `Jump` followed by an
`Invalid` placeholder word, returning the placeholder's index. -/
def add_jump (f : Function) (if_false : Bool) : Function × Nat :=
  let f1 := if if_false then f.add_op .JumpIfFalse else f.add_op .Jump
  let f2 := f1.add_address OpCode.Invalid.to_u8
  (f2, f1.codes.length)

/-- Source `Function::patch_jump`: overwrite the placeholder at `address` with
`codes.size() - address - 1`. -/
def patch_jump (f : Function) (address : Nat) : Option Function :=
  (chunkSet f.codes address (f.codes.length - address - 1)).map
    fun c => .mk f.name f.arity f.is_loop c f.has_return f.captures

/-- Source `Function::add_capture`: record a capture as `(frame, address, None)`. -/
def add_capture (f : Function) (name : String) (frame address : Nat) :
    Function :=
  .mk f.name f.arity f.is_loop f.codes f.has_return
    ((name, frame, address, none) :: f.captures.filter (fun e => e.1 ≠ name))

/-- Source `Function::populate_capture`: if `name` is in the capture table,
re-insert it with the materialized value. -/
def populate_capture (f : Function) (name : String) (value : Value) :
    Function :=
  match f.captures.find? (fun e => e.1 = name) with
  | none => f
  | some (_, frame, address, _) =>
      .mk f.name f.arity f.is_loop f.codes f.has_return
        ((name, frame, address, some value) ::
          f.captures.filter (fun e => e.1 ≠ name))

/-- Source `Function::get_capture`: the materialized value recorded for `name`. -/
def get_capture (f : Function) (name : String) : Option Value :=
  (f.captures.find? (fun e => e.1 = name)).bind fun e => e.2.2.2

end Function

/-! ## Value display, equality and order (`src/value.rs`)

`impl From<Value> for String` renders a value as text; `PartialEq for
Value` compares the rendered text of two values of the same type, and
`PartialOrd for Value` builds on both.  The Rust renderer for numbers is
`f64`'s `Display`, which is injective on the floats the model covers; in
the rational model it is replaced by an (injective) exact rendering
`numToString` of the rational payload. -/

/-- Decimal digit characters of a natural number, most significant first
(the rendering used by Rust's integer `Display`). -/
def natRepr (n : Nat) : List Char :=
  if n = 0 then ['0']
  else ((Nat.digits 10 n).map (fun d => Char.ofNat (d + 48))).reverse

/-- Exact rendering of a rational, modelling the role of `f64::to_string`
in `src/value.rs` (an injective rendering of the numeric payload). -/
def numToString (q : ℚ) : String :=
  ⟨(if q.num < 0 then ['-'] else []) ++ natRepr q.num.natAbs ++
    '/' :: natRepr q.den⟩

/-- Source `impl Display for Function` of `src/function.rs`: `"{name}/{arity}"`. -/
def funToString (f : Function) : String :=
  f.name ++ ⟨'/' :: natRepr f.arity⟩

/-- Source `impl From<Value> for String` of `src/value.rs`. -/
def valueToString : Value → String
  | .nil => "nil"
  | .string s => s
  | .boolean true => "true"
  | .boolean false => "false"
  | .number q => numToString q
  | .function _ (some f) => funToString f
  | .function _ none => ""

/-- The private `Type` tag enum of `src/value.rs`. -/
inductive VType where
  | nil | number | str | boolean | function
  deriving DecidableEq

/-- Source `Value::get_type`. -/
def Value.get_type : Value → VType
  | .nil => .nil
  | .number _ => .number
  | .string _ => .str
  | .boolean _ => .boolean
  | .function _ _ => .function

/-- Source `impl PartialEq for Value`: values of different types are unequal;
values of the same type are compared on their rendered text. -/
def valueEq (v w : Value) : Bool :=
  if v.get_type = w.get_type then valueToString v == valueToString w
  else false

/-- Comparison of two rationals, modelling `f64::partial_cmp` on the
rational fragment (total there; NaN is outside the model). -/
def numCmp (a b : ℚ) : Ordering :=
  if a < b then .lt else if b < a then .gt else .eq

/-- Source `str::partial_cmp`: lexicographic order on strings. -/
def strCmp (a b : String) : Ordering :=
  if a < b then .lt else if b < a then .gt else .eq

/-- Source `bool::partial_cmp`: `false < true`. -/
def boolCmp (a b : Bool) : Ordering :=
  if a = b then .eq else if a = false then .lt else .gt

/-- Source `impl PartialOrd for Value` of `src/value.rs`: equal values compare
`Equal`; within a type the payload order decides (functions are
incomparable); across types the fixed arm order of the source yields the
priority `Nil < Boolean < Number < String < Function`. -/
def valuePartialCmp (v w : Value) : Option Ordering :=
  if valueEq v w then some .eq
  else if v.get_type = w.get_type then
    match v.get_type with
    | .nil => some .eq
    | _ =>
      match v, w with
      | .function _ _, .function _ _ => none
      | .string a, .string b => some (strCmp a b)
      | .number a, .number b => some (numCmp a b)
      | .boolean a, .boolean b => some (boolCmp a b)
      | _, _ => none
  else
    match v.get_type, w.get_type with
    | .nil, _ => some .lt
    | _, .nil => some .gt
    | _, .function => some .lt
    | .function, _ => some .gt
    | _, .str => some .lt
    | .str, _ => some .gt
    | _, .number => some .lt
    | .number, _ => some .gt
    | _, _ => none

/-- Rust `PartialOrd::lt` (derived from `partial_cmp`). -/
def valueLt (v w : Value) : Bool :=
  valuePartialCmp v w == some .lt

/-- Rust `PartialOrd::le` (derived from `partial_cmp`). -/
def valueLe (v w : Value) : Bool :=
  valuePartialCmp v w == some .lt || valuePartialCmp v w == some .eq

/-- Rust `PartialOrd::gt` (derived from `partial_cmp`). -/
def valueGt (v w : Value) : Bool :=
  valuePartialCmp v w == some .gt

/-- Rust `PartialOrd::ge` (derived from `partial_cmp`). -/
def valueGe (v w : Value) : Bool :=
  valuePartialCmp v w == some .gt || valuePartialCmp v w == some .eq

/-! ## The VM state (`src/vm.rs`)

`start_time` and the captured-stdout test hook carry no semantics the
verified statements touch and are omitted.  The value stack is a vector
of frames; the *last* frame (and the *last* slot of a frame) is the top,
as with Rust's `Vec::push`/`Vec::pop`. -/

/-- The fields of `struct VM` in `src/vm.rs`. -/
structure VMState where
  stack : List (List Value)
  constants : List Value
  globals : List (String × Value)
  functions : List (Function × Nat)
  loops : List (String × Function)

/-- Source `VM::stack_pop`: pop from the top frame.  The outer `none` models the
panic of `last_mut().unwrap()` when there is no frame; the inner option is
the popped value (`None` on an empty frame). -/
def stackPop (st : VMState) : Option (Option Value × VMState) :=
  match st.stack.getLast? with
  | none => none
  | some frame =>
      some (frame.getLast?,
        { st with stack := st.stack.dropLast ++ [frame.dropLast] })

/-- Source `VM::stack_peek`: clone the top value of the top frame. -/
def stackPeek (st : VMState) : Option (Option Value) :=
  st.stack.getLast?.map fun frame => frame.getLast?

/-- Source `VM::stack_push`: push onto the top frame (panics with no frame). -/
def stackPush (st : VMState) (value : Value) : Option VMState :=
  match st.stack.getLast? with
  | none => none
  | some frame =>
      some { st with stack := st.stack.dropLast ++ [frame ++ [value]] }

/-- Source `VM::stack_get`: read slot `address` of the top frame. -/
def stackGet (st : VMState) (address : Nat) : Option (Option Value) :=
  st.stack.getLast?.map fun frame => frame.get? address

/-- Source `VM::stack_insert`: `frame.remove(address); frame.insert(address,
value)`, i.e. overwrite slot `address`; panics out of bounds. -/
def stackInsert (st : VMState) (address : Nat) (value : Value) :
    Option VMState :=
  match st.stack.getLast? with
  | none => none
  | some frame =>
      (chunkSet frame address value).map fun frame1 =>
        { st with stack := st.stack.dropLast ++ [frame1] }

/-- Source `HashMap::insert` on the globals map: returns the previous binding
(as `HashMap::insert` does) together with the updated map. -/
def globalsInsert (globals : List (String × Value)) (name : String)
    (value : Value) : Option Value × List (String × Value) :=
  match globals.find? (fun e => e.1 == name) with
  | some old =>
      (some old.2, globals.map fun e => if e.1 == name then (name, value) else e)
  | none => (none, globals ++ [(name, value)])

/-- Source `HashMap::get` on the globals map. -/
def globalsGet (globals : List (String × Value)) (name : String) :
    Option Value :=
  (globals.find? (fun e => e.1 == name)).map (·.2)

/-- Source `Value::Function(_) => true` — the filter predicate inside
`VM::get_function_from_constants`. -/
def Value.isFunctionValue : Value → Bool
  | .function _ _ => true
  | _ => false

/-- The name test inside `VM::get_function_from_constants`
(`function.name() == *name`).  `src/value.rs` stores a function constant
as `(usize, Option<Function>)`; the name lives in the materialized
descriptor, so an unmaterialized constant matches no name. -/
def Value.functionNameIs : Value → String → Bool
  | .function _ (some f), name => f.name == name
  | _, _ => false

/-- The descriptor extracted from a function constant. -/
def Value.descriptorOf : Value → Option Function
  | .function _ d => d
  | _ => none

/-- Source `VM::get_function_from_functions`: the most recently registered
function whose name matches and whose defining scope is `≤ given_scope`
(`iter().rev().find(...)`). -/
def get_function_from_functions (st : VMState) (name : String)
    (given_scope : Nat) : Option Function :=
  (st.functions.reverse.find? fun e =>
    decide (e.1.name = name ∧ e.2 ≤ given_scope)).map (·.1)

/-- Source `VM::get_function_from_constants`: filter the constant pool down to
function constants and take the first whose name matches — no scope test
anywhere. -/
def get_function_from_constants (st : VMState) (name : String) :
    Option Function :=
  ((st.constants.filter Value.isFunctionValue).find? fun v =>
    v.functionNameIs name).bind Value.descriptorOf

/-- Source `VM::resolve_function`: the function table first, then the constant
pool fallback. -/
def resolve_function (st : VMState) (name : String) (given_scope : Nat) :
    Option Function :=
  match get_function_from_functions st name given_scope with
  | some function => some function
  | none => get_function_from_constants st name

/-- Source `VM::clear_scope_functions`: drop every function registered exactly at
`given_scope`. -/
def clear_scope_functions (st : VMState) (given_scope : Nat) : VMState :=
  { st with functions := st.functions.filter fun e => e.2 ≠ given_scope }

/-- Source `VM::get_loop`. -/
def get_loop (st : VMState) (name : String) : Option Function :=
  (st.loops.find? (fun e => e.1 == name)).map (·.2)

/-- Source `VM::is_falsey` (`src/vm.rs`): empty strings, zero numbers, `false`,
and `Nil` are falsey; other strings, numbers and `true` are truthy;
functions have no truth value (`None`). -/
def is_falsey : Value → Option Bool
  | .string s => if s.isEmpty then some true else some false
  | .number q => if q = 0 then some true else some false
  | .boolean b => some (!b)
  | .nil => some true
  | .function _ _ => none

/-- Source `resolve_nif` (`src/nif.rs`), reduced to the data the VM dispatch
consumes: whether the name is a native, and its arity (`None` means
variadic). -/
def resolve_nif (name : String) : Option (Option Nat) :=
  match name with
  | "div" => some (some 2)
  | "clock" => some (some 0)
  | "parse" => some (some 1)
  | "print" => some none
  | "is_nil" => some (some 1)
  | "type_of" => some (some 1)
  | "println" => some none
  | "is_number" => some (some 1)
  | "is_string" => some (some 1)
  | "is_boolean" => some (some 1)
  | "is_function" => some (some 1)
  | _ => none

/-- Rust's `as u128` on an `f64`: truncate toward zero and clamp negative
values to zero (on the rational model). -/
def ratAsU128 (q : ℚ) : Nat :=
  q.floor.toNat

/-- Truncation toward zero, as `f64` division-remainder uses. -/
def ratTrunc (x : ℚ) : ℤ :=
  if 0 ≤ x then x.floor else -((-x).floor)

/-- Rust `f64 % f64`: `a - b * trunc(a / b)` (on the rational model). -/
def ratRem (a b : ℚ) : ℚ :=
  a - b * (ratTrunc (a / b) : ℚ)

/-! ## One dispatch step of `VM::run` (`src/vm.rs`)

`VM::run` iterates over the current function's code words.  `step fn pc
st` executes the word at index `pc` exactly as the dispatch `match` does
and reports what the loop did next.  Reads of operand words via
`iterator.next()` become reads of `fn.codes` at `pc+1`, `pc+2`, …; a pad
word that is read and ignored (`iterator.next();`) only shifts the index.
The recursive invocations `self.run(function)` (in `Call`) and
`self.run(lp)` (in `Loop`) are reported as `callFn` / `callLoop`
outcomes, after the state mutations that precede them.

The `OpCode::GetVar` arm of the source `match` is dead: `src/op.rs` has
no such variant (no byte decodes to it), so it is not modelled.  The
arms the `match` does not list — `GetLocal`, `GetGlobal`, `GetCaptured`,
`MakeClosure`, `SetCaptured` and `Invalid` — hit the catch-all
`_ => return InterpretResult::CompileError`. -/

/-- What one iteration of the dispatch loop did. -/
inductive StepResult where
  | next (pc : Nat) (st : VMState)
  | stop (st : VMState)
  | fail (st : VMState)
  | abort (st : VMState)
  | callFn (g : Function) (pc : Nat) (st : VMState)
  | callLoop (g : Function) (pc : Nat) (st : VMState)
  | callNif (name : String) (args : Nat) (pc : Nat) (st : VMState)
  | done (st : VMState)

/-- Pop the top value as a number or report the outcome the source arm
produces — the shared shape of the `Add`/`Multiply`/`Rem`/`Divide`
(and second halves of their `let Some(Value::Number(..)) = ... else`
bindings). -/
def popNumber (st : VMState) : Option (Sum (ℚ × VMState) VMState) :=
  match stackPop st with
  | none => none
  | some (some (.number v), st1) => some (.inl (v, st1))
  | some (_, st1) => some (.inr st1)

/-- The common body of the four numeric binary opcodes: pop right, pop
left, both must be numbers, push `op left right`. -/
def stepBinNumber (st : VMState) (pc : Nat) (op : ℚ → ℚ → ℚ) :
    Option StepResult :=
  match popNumber st with
  | none => none
  | some (.inr st1) => some (.fail st1)
  | some (.inl (right, st1)) =>
      match popNumber st1 with
      | none => none
      | some (.inr st2) => some (.fail st2)
      | some (.inl (left, st2)) =>
          (stackPush st2 (.number (op left right))).map (.next (pc + 1) ·)

/-- The common body of the six comparison opcodes: pop right, pop left
(any values), push the boolean `op left right`. -/
def stepBinCompare (st : VMState) (pc : Nat) (op : Value → Value → Bool) :
    Option StepResult :=
  match stackPop st with
  | none => none
  | some (none, st1) => some (.fail st1)
  | some (some right, st1) =>
      match stackPop st1 with
      | none => none
      | some (none, st2) => some (.fail st2)
      | some (some left, st2) =>
          (stackPush st2 (.boolean (op left right))).map (.next (pc + 1) ·)

/-- Source `for _ in 0..args { substack.push(self.stack_pop().unwrap()) }`:
pop `n` values (panicking, like `unwrap`, on underflow), in pop order. -/
def popN (st : VMState) : Nat → Option (List Value × VMState)
  | 0 => some ([], st)
  | n + 1 =>
      match stackPop st with
      | none => none
      | some (none, _) => none
      | some (some v, st1) =>
          (popN st1 n).map fun r => (v :: r.1, r.2)

/-- One iteration of the dispatch loop of `VM::run`. -/
def step (fn : Function) (pc : Nat) (st : VMState) : Option StepResult :=
  match fn.codes.get? pc with
  | none => some (.done st)
  | some current =>
    match OpCode.of_u8 current with
    | .Return =>
        match stackPop st with
        | none => none
        | some (rv?, st1) =>
            let st2 := { st1 with stack := st1.stack.dropLast }
            (stackPush st2 (rv?.getD .nil)).map .stop
    | .Constant =>
        match fn.codes.get? (pc + 1) with
        | none => some (.fail st)
        | some address =>
            match st.constants.get? address with
            | none => some (.fail st)
            | some c => (stackPush st c).map (.next (pc + 2) ·)
    | .Negate =>
        match popNumber st with
        | none => none
        | some (.inr st1) => some (.fail st1)
        | some (.inl (v, st1)) =>
            (stackPush st1 (.number (-v))).map (.next (pc + 1) ·)
    | .Not =>
        match stackPop st with
        | none => none
        | some (none, st1) => some (.fail st1)
        | some (some v, st1) =>
            match v with
            | .nil => (stackPush st1 (.boolean true)).map (.next (pc + 1) ·)
            | .boolean b =>
                (stackPush st1 (.boolean (!b))).map (.next (pc + 1) ·)
            | .number q =>
                (stackPush st1 (.boolean (q = 0))).map (.next (pc + 1) ·)
            | .string s =>
                (stackPush st1 (.boolean s.isEmpty)).map (.next (pc + 1) ·)
            | .function _ _ => some (.fail st1)
    | .Concat =>
        match stackPop st with
        | none => none
        | some (none, st1) => some (.fail st1)
        | some (some right, st1) =>
            match stackPop st1 with
            | none => none
            | some (none, st2) => some (.fail st2)
            | some (some left, st2) =>
                (stackPush st2
                  (.string (valueToString left ++ valueToString right))).map
                  (.next (pc + 1) ·)
    | .Add => stepBinNumber st pc (· + ·)
    | .Multiply => stepBinNumber st pc (· * ·)
    | .Rem => stepBinNumber st pc ratRem
    | .Divide => stepBinNumber st pc (· / ·)
    | .Equal => stepBinCompare st pc (fun l r => valueEq l r)
    | .NotEqual => stepBinCompare st pc (fun l r => !valueEq l r)
    | .GreaterEqual => stepBinCompare st pc valueGe
    | .Greater => stepBinCompare st pc valueGt
    | .LessEqual => stepBinCompare st pc valueLe
    | .Less => stepBinCompare st pc valueLt
    | .Pop =>
        match stackPop st with
        | none => none
        | some (_, st1) => some (.next (pc + 1) st1)
    | .Nil => (stackPush st .nil).map (.next (pc + 1) ·)
    | .DefGlobal =>
        match fn.codes.get? (pc + 2) with
        | none => some (.fail st)
        | some address =>
            match st.constants.get? address with
            | some (.string variable_name) =>
                match stackPop st with
                | none => none
                | some (none, st1) => some (.fail st1)
                | some (some value, st1) =>
                    some (.next (pc + 3)
                      { st1 with
                        globals :=
                          (globalsInsert st1.globals variable_name value).2 })
            | _ => some (.fail st)
    | .SetGlobal =>
        match fn.codes.get? (pc + 2) with
        | none => some (.fail st)
        | some address =>
            match st.constants.get? address with
            | some (.string variable_name) =>
                match stackPeek st with
                | none => none
                | some none => some (.fail st)
                | some (some value) =>
                    let r := globalsInsert st.globals variable_name value
                    let st1 := { st with globals := r.2 }
                    match r.1 with
                    | none => some (.fail st1)
                    | some _ => some (.next (pc + 3) st1)
            | _ => some (.fail st)
    | .SetLocal =>
        match fn.codes.get? (pc + 1) with
        | none => some (.fail st)
        | some address =>
            match stackPeek st with
            | none => none
            | some none => some (.fail st)
            | some (some value) =>
                (stackInsert st address value).map (.next (pc + 2) ·)
    | .JumpIfFalse =>
        match stackPeek st with
        | none => none
        | some none => some (.fail st)
        | some (some value) =>
            match is_falsey value with
            | none => some (.fail st)
            | some b =>
                match fn.codes.get? (pc + 1) with
                | none => some (.fail st)
                | some size =>
                    some (.next (if b then pc + 2 + size else pc + 2) st)
    | .Jump =>
        match fn.codes.get? (pc + 1) with
        | none => some (.fail st)
        | some size => some (.next (pc + 2 + size) st)
    | .Loop =>
        match fn.codes.get? (pc + 2) with
        | none => some (.fail st)
        | some address =>
            match st.constants.get? address with
            | some (.string loop_name) =>
                match get_loop st loop_name with
                | none => some (.fail st)
                | some lp =>
                    some (.callLoop lp (pc + 3)
                      { st with stack := st.stack ++ [[]] })
            | _ => some (.fail st)
    | .Call =>
        match fn.codes.get? (pc + 2) with
        | none => some (.fail st)
        | some a1 =>
            match st.constants.get? a1 with
            | some (.number scope_q) =>
                match fn.codes.get? (pc + 4) with
                | none => some (.fail st)
                | some a2 =>
                    match st.constants.get? a2 with
                    | some (.number args_q) =>
                        match fn.codes.get? (pc + 6) with
                        | none => some (.fail st)
                        | some a3 =>
                            match st.constants.get? a3 with
                            | some (.string function_name) =>
                                let scope := ratAsU128 scope_q
                                let args := ratAsU128 args_q
                                match resolve_nif function_name with
                                | some (some a) =>
                                    if a ≠ args then some (.fail st)
                                    else some (.callNif function_name args
                                      (pc + 7) st)
                                | some none =>
                                    some (.callNif function_name args
                                      (pc + 7) st)
                                | none =>
                                    match resolve_function st function_name
                                        scope with
                                    | none => some (.fail st)
                                    | some function =>
                                        if function.arity ≠ args then
                                          some (.fail st)
                                        else
                                          match popN st args with
                                          | none => none
                                          | some (substack, st1) =>
                                              some (.callFn function (pc + 7)
                                                { st1 with
                                                  stack := st1.stack ++
                                                    [substack.reverse] })
                            | _ => some (.fail st)
                    | _ => some (.fail st)
            | _ => some (.fail st)
    | .ClearScope =>
        match fn.codes.get? (pc + 2) with
        | none => some (.fail st)
        | some address =>
            match st.constants.get? address with
            | some (.number scope_q) =>
                some (.next (pc + 3) (clear_scope_functions st
                  (ratAsU128 scope_q)))
            | _ => some (.fail st)
    | .GetLocal => some (.abort st)
    | .GetGlobal => some (.abort st)
    | .GetCaptured => some (.abort st)
    | .MakeClosure => some (.abort st)
    | .SetCaptured => some (.abort st)
    | .Invalid => some (.abort st)

/-! ## Tokens (`src/token.rs`) -/

/-- The `Kind` enum of `src/token.rs` (note the source's `GreateEqual`
spelling, and that it has no percent/`%` kind). -/
inductive Kind where
  | LeftParen | RightParen | LeftBrace | RightBrace | Comma | Dot
  | Minus | Plus | Semicolon | Slash | Star
  | Bang | BangEqual | Concat | Equal | EqualEqual
  | Greater | GreateEqual | Less | LessEqual
  | Identifier | String | Number
  | And | Class | Else | Expands | False | Fun | For | If | Let
  | Nil | Not | Or | Return | Super | This | True | While
  | Error | Eof
  deriving DecidableEq

/-- The `Token` struct: `Token::new` discards the start position, keeping
only the kind and the optional literal value. -/
structure Token where
  kind : Kind
  value : Option Value

/-- Source `Kind::keyword_equivalent` of `src/token.rs`. -/
def keyword_equivalent (candidate : String) : Option Kind :=
  match candidate with
  | "and" => some .And
  | "class" => some .Class
  | "else" => some .Else
  | "expands" => some .Expands
  | "false" => some .False
  | "fun" => some .Fun
  | "for" => some .For
  | "if" => some .If
  | "nil" => some .Nil
  | "not" => some .Not
  | "or" => some .Or
  | "return" => some .Return
  | "super" => some .Super
  | "this" => some .This
  | "true" => some .True
  | "let" => some .Let
  | "while" => some .While
  | _ => none

/-! ## The scanner (`src/scanner.rs`)

`Scanner::next` is modelled as a function from the remaining character
list to the produced token and the rest of the input; the `(line,
column)` cursor only feeds the start position that `Token::new` discards,
so it is not modelled.  The scanner never yields Rust-`None` (end of
input produces `Eof` tokens forever); the Lean `none` models the panic of
the `.unwrap()` on `self.storage.parse()` in the numeric-literal arm.

The two character classes and the float parser come from the Rust
standard library, not from this repository.  They are modelled on the
character sets this development exercises:

* `charIsNumeric` models `char::is_numeric` (true on the Unicode
  categories Nd/Nl/No): here ASCII digits plus U+0663 ARABIC-INDIC DIGIT
  THREE, a non-ASCII character with `is_numeric() == true`.  Every other
  character used below is ASCII and not a digit, where the model is exact.
* `charIsAlphabetic` models `char::is_alphabetic` (ASCII fragment).
* `parse_f64` models `str::parse::<f64>()` on the texts the number arm
  can accumulate (a leading `is_numeric` character followed by
  `is_numeric` characters and at most one `'.'`): such a text parses
  exactly when it consists of ASCII digits with at most one trailing
  dot-fraction; any non-ASCII numeric character makes the parse fail. -/

/-- Model of Rust `char::is_numeric` (see the section comment). -/
def charIsNumeric (c : Char) : Bool :=
  c.isDigit || c = '٣'

/-- Model of Rust `char::is_alphabetic` (see the section comment). -/
def charIsAlphabetic (c : Char) : Bool :=
  c.isAlpha

/-- Decimal value of a list of ASCII digits. -/
def digitsVal (cs : List Char) : Nat :=
  cs.foldl (fun acc c => acc * 10 + (c.toNat - 48)) 0

/-- Model of Rust `str::parse::<f64>()` (see the section comment). -/
def parse_f64 (cs : List Char) : Option ℚ :=
  match cs.span (fun c => c.isDigit) with
  | (intPart, rest) =>
    if intPart.isEmpty then none
    else
      match rest with
      | [] => some (digitsVal intPart)
      | '.' :: frac =>
          if frac.all (fun c => c.isDigit) then
            some ((digitsVal intPart : ℚ) +
              (digitsVal frac : ℚ) / ((10 : ℚ) ^ frac.length))
          else none
      | _ => none

/-- The `//`-comment loop of `Scanner::next`: consume characters up to
and including the first newline (or the whole input). -/
def dropComment (source : List Char) : List Char :=
  (source.dropWhile (fun c => c ≠ '\n')).drop 1

/-- The collection loop of the numeric-literal arm: extend `storage`
while the next character is numeric, or is a first `'.'`. -/
def scanNumberTail (storage : List Char) : List Char → List Char × List Char
  | [] => (storage, [])
  | ch :: rest =>
      if charIsNumeric ch || (ch = '.' && !storage.contains '.') then
        scanNumberTail (storage ++ [ch]) rest
      else (storage, ch :: rest)

/-- Source `Scanner::next` (`impl Iterator for Scanner`): one token from the
remaining input, with the rest of the input.  `none` models the panic on
a failing numeric parse; every other outcome is a token. -/
def scanner_next (source : List Char) : Option (Token × List Char) :=
  match source with
  | [] => some (⟨.Eof, none⟩, [])
  | c :: rest =>
    if c = '\n' then scanner_next rest
    else if c = ' ' ∨ c = '\r' ∨ c = '\t' then scanner_next rest
    else if c = '/' then
      if rest.head? = some '/' then scanner_next (dropComment rest)
      else some (⟨.Slash, none⟩, rest)
    else if c = '(' then some (⟨.LeftParen, none⟩, rest)
    else if c = ')' then some (⟨.RightParen, none⟩, rest)
    else if c = ';' then some (⟨.Semicolon, none⟩, rest)
    else if c = ',' then some (⟨.Comma, none⟩, rest)
    else if c = '.' then some (⟨.Dot, none⟩, rest)
    else if c = '+' then some (⟨.Plus, none⟩, rest)
    else if c = '-' then some (⟨.Minus, none⟩, rest)
    else if c = '*' then some (⟨.Star, none⟩, rest)
    else if c = '{' then some (⟨.LeftBrace, none⟩, rest)
    else if c = '}' then some (⟨.RightBrace, none⟩, rest)
    else if c = '!' then
      match rest with
      | '=' :: rest2 => some (⟨.BangEqual, none⟩, rest2)
      | _ :: _ => some (⟨.Bang, none⟩, rest)
      | [] =>
          some (⟨.Error, some (.string "Unexpected end of script")⟩, [])
    else if c = '=' then
      match rest with
      | '=' :: rest2 => some (⟨.EqualEqual, none⟩, rest2)
      | _ :: _ => some (⟨.Equal, none⟩, rest)
      | [] =>
          some (⟨.Error, some (.string "Unexpected end of script")⟩, [])
    else if c = '<' then
      match rest with
      | '=' :: rest2 => some (⟨.LessEqual, none⟩, rest2)
      | '>' :: rest2 => some (⟨.Concat, none⟩, rest2)
      | _ :: _ => some (⟨.Less, none⟩, rest)
      | [] =>
          some (⟨.Error, some (.string "Unexpected end of script")⟩, [])
    else if c = '>' then
      match rest with
      | '=' :: rest2 => some (⟨.GreateEqual, none⟩, rest2)
      | _ :: _ => some (⟨.Greater, none⟩, rest)
      | [] =>
          some (⟨.Error, some (.string "Unexpected end of script")⟩, [])
    else if c = '"' then
      match rest.span (fun ch => ch ≠ '"') with
      | (content, rest1) =>
        match rest1 with
        | [] =>
            some (⟨.Error, some (.string "Unexpected end of script")⟩, [])
        | _ :: rest2 => some (⟨.String, some (.string ⟨content⟩)⟩, rest2)
    else if charIsNumeric c then
      match scanNumberTail [c] rest with
      | (storage, rest1) =>
        match parse_f64 storage with
        | none => none
        | some q => some (⟨.Number, some (.number q)⟩, rest1)
    else if charIsAlphabetic c ∨ c = '_' then
      match rest.span
          (fun ch => charIsNumeric ch || charIsAlphabetic ch || ch = '_') with
      | (more, rest1) =>
        let storage : String := ⟨c :: more⟩
        match keyword_equivalent storage with
        | some kind => some (⟨kind, some (.string storage)⟩, rest1)
        | none => some (⟨.Identifier, some (.string storage)⟩, rest1)
    else
      some (⟨.Error,
        some (.string ("Unexpected character " ++ String.singleton c))⟩, rest)
termination_by source.length
decreasing_by
  · simp
  · simp
  · simp only [List.length_cons]
    have h1 : (dropComment rest).length ≤ rest.length := by
      have h2 := (List.dropWhile_sublist (fun c => c ≠ '\n') (l := rest)).length_le
      simp only [dropComment, List.length_drop]
      omega
    omega

/-! ## Verified statements

Each `C·` theorem below settles one sentence of the specification
against the embedding above.  States written out in full are compared
literally (`rfl`), so the whole effect of a step — including mutations
that precede an error return — is visible in the statement. -/

/-- C1.  The specification says the `Return` opcode pops the current
frame *only when* the executing function is not a loop body.  The source
arm (`src/vm.rs`, `OpCode::Return`) never consults `is_loop`: executed
inside a function built by `Function::new_loop` (so `is_loop = true`)
with two frames `[[1], [2]]`, it still pops the loop frame and pushes
the return value onto the caller's frame, leaving a single frame
`[[1, 2]]` — where the specification requires the loop frame to stay. -/
theorem C1_return_pops_frame_even_inside_loop_body :
    ((Function.new_loop "L").add_op .Return).is_loop = true ∧
    step ((Function.new_loop "L").add_op .Return) 0
        ⟨[[.number 1], [.number 2]], [], [], [], []⟩ =
      some (.stop ⟨[[.number 1, .number 2]], [], [], [], []⟩) := by
  exact ⟨rfl, rfl⟩

/-- C2.  The specification says `MakeClosure` materializes every capture
(via `Function::populate_capture`) and that `GetCaptured` then reads the
copy.  The dispatch `match` of `src/vm.rs` has no arm for either opcode:
both fall into `_ => return InterpretResult::CompileError`, so a
function with an (unmaterialized) capture entry aborts on `MakeClosure`
(byte 27) and on `GetCaptured` (byte 26) with the state untouched — no
capture is ever materialized at run time.  `Function::populate_capture`
and `Function::get_capture` themselves do implement the by-value copy
the specification describes, but nothing in `VM::run` calls them. -/
theorem C2_make_closure_and_get_captured_abort :
    step (Function.mk "outer" 0 false [27, 16, 0] (some false) []) 0
        ⟨[[.number 9]], [.number 0], [], [], []⟩ =
      some (.abort ⟨[[.number 9]], [.number 0], [], [], []⟩) ∧
    step (Function.mk "inner" 0 false [26, 16, 0] (some false)
          [("x", 0, 0, none)]) 0
        ⟨[[]], [.string "x"], [], [], []⟩ =
      some (.abort ⟨[[]], [.string "x"], [], [], []⟩) ∧
    ((Function.mk "inner" 0 false [] (some false)
        [("x", 0, 0, none)]).populate_capture "x"
          (.number 7)).get_capture "x" = some (.number 7) := by
  exact ⟨rfl, rfl, rfl⟩

/-- C5, counterexample.  The claim says a comparison opcode on operands
of mismatched types is a runtime error.  `Greater` (byte 14) on left
operand `1` (a number) and right operand `"a"` (a string) instead pushes
`Boolean(false)` and continues: `Value::partial_cmp` orders values of
different types by the fixed cross-type priority, and the derived
`PartialOrd::gt` never fails. -/
theorem C5_greater_on_number_and_string_pushes_false :
    step (Function.mk "f" 0 false [14] (some false) []) 0
        ⟨[[.number 1, .string "a"]], [], [], [], []⟩ =
      some (.next 1 ⟨[[.boolean false]], [], [], [], []⟩) := by
  exact rfl

/-- C6, counterexample.  The claim says two function values are equal
exactly when their payloads are structurally equal.  `PartialEq for
Value` compares the *rendered text* of same-typed values, and an
unmaterialized function value renders as the empty string, so
`Function((0, None))` and `Function((5, None))` — structurally different
payloads — compare equal. -/
theorem C6_distinct_function_payloads_compare_equal :
    valueEq (.function 0 none) (.function 5 none) = true ∧
    Value.function 0 none ≠ Value.function 5 none := by
  refine ⟨rfl, fun h => ?_⟩
  injection h with h1 h2
  exact absurd h1 (by decide)

/-- C7, counterexample.  The claim says that when the name is absent
`SetGlobal` yields a runtime error *and leaves the globals map
unchanged*.  The source calls `self.globals.insert(..)` first and only
then inspects the returned previous binding, so on the error path the
map has already gained the binding: from empty globals, `SetGlobal "x"`
with `7` on the stack fails — with `globals = [("x", 7)]`. -/
theorem C7_set_global_missing_name_errors_but_inserts :
    step (Function.mk "f" 0 false [23, 16, 0] (some false) []) 0
        ⟨[[.number 7]], [.string "x"], [], [], []⟩ =
      some (.fail ⟨[[.number 7]], [.string "x"], [("x", .number 7)], [], []⟩) ∧
    ([("x", Value.number 7)] : List (String × Value)) ≠ [] := by
  exact ⟨rfl, by simp⟩

/-- C8.  The claim says a numeric literal whose text fails to parse
yields an `Error` token and the scanner does not panic.  The unterminated
string half is true (second conjunct), but the number arm ends in
`self.storage.parse().unwrap()`: on the input `"٣"` (U+0663
ARABIC-INDIC DIGIT THREE — `char::is_numeric` accepts it, `f64`'s parser
does not) the scanner panics (modelled `none`) instead of producing a
token. -/
theorem C8_number_parse_failure_panics_string_error_token :
    charIsNumeric '٣' = true ∧
    scanner_next ['٣'] = none ∧
    scanner_next ('"' :: 'a' :: 'b' :: []) =
      some (⟨.Error, some (.string "Unexpected end of script")⟩, []) := by
  refine ⟨rfl, ?_, ?_⟩
  · simp +decide [scanner_next, scanNumberTail, parse_f64]
  · simp +decide [scanner_next]

/-- C9.  The claim says the scanner turns each of `( ) { } , . ; + - * /
%` into its one-character token; for the first eleven it does, but the
scanner has no `'%'` arm (and `src/token.rs` has no percent kind — even
though `src/compiler.rs` matches on `Kind::Percent` and the VM
implements `Rem`), so `'%'` falls through to the catch-all and yields an
`Error` token. -/
theorem C9_percent_lexes_to_error_token :
    scanner_next ['('] = some (⟨.LeftParen, none⟩, []) ∧
    scanner_next [')'] = some (⟨.RightParen, none⟩, []) ∧
    scanner_next ['{'] = some (⟨.LeftBrace, none⟩, []) ∧
    scanner_next ['}'] = some (⟨.RightBrace, none⟩, []) ∧
    scanner_next [','] = some (⟨.Comma, none⟩, []) ∧
    scanner_next ['.'] = some (⟨.Dot, none⟩, []) ∧
    scanner_next [';'] = some (⟨.Semicolon, none⟩, []) ∧
    scanner_next ['+'] = some (⟨.Plus, none⟩, []) ∧
    scanner_next ['-'] = some (⟨.Minus, none⟩, []) ∧
    scanner_next ['*'] = some (⟨.Star, none⟩, []) ∧
    scanner_next ['/'] = some (⟨.Slash, none⟩, []) ∧
    scanner_next ['%'] =
      some (⟨.Error, some (.string "Unexpected character %")⟩, []) := by
  refine ⟨?_, ?_, ?_, ?_, ?_, ?_, ?_, ?_, ?_, ?_, ?_, ?_⟩ <;>
    simp +decide [scanner_next]

/-- C4.  The falsey rule of `VM::is_falsey`: `Nil`, `false`, the number
`0` and the empty string are exactly the falsey values; every other
number, string, and `true` are truthy; a function value has no defined
falsiness, so `JumpIfFalse` probing one is a runtime error; and the
`Not` opcode pushes the boolean equal to the falsiness of the popped
value — the negation of its truthiness (and errors on a function). -/
theorem C4_falsey_rule_and_not_opcode :
    (∀ v, is_falsey v = some true ↔
        v = .nil ∨ v = .boolean false ∨ v = .number 0 ∨ v = .string "") ∧
    (∀ v, is_falsey v = some false ↔
        ((∃ q, q ≠ 0 ∧ v = .number q) ∨ (∃ s, s ≠ "" ∧ v = .string s) ∨
          v = .boolean true)) ∧
    (∀ a d, is_falsey (.function a d) = none) ∧
    (∀ (fn : Function) (pc : Nat) (st : VMState) (a : Nat)
        (d : Option Function),
      fn.codes.get? pc = some 25 →
      stackPeek st = some (some (.function a d)) →
      step fn pc st = some (.fail st)) ∧
    (∀ (fn : Function) (pc : Nat) (st st1 : VMState) (v : Value) (b : Bool),
      fn.codes.get? pc = some 2 →
      stackPop st = some (some v, st1) →
      is_falsey v = some b →
      step fn pc st = (stackPush st1 (.boolean b)).map (.next (pc + 1) ·)) ∧
    (∀ (fn : Function) (pc : Nat) (st st1 : VMState) (a : Nat)
        (d : Option Function),
      fn.codes.get? pc = some 2 →
      stackPop st = some (some (.function a d), st1) →
      step fn pc st = some (.fail st1)) := by
  refine ⟨?_, ?_, ?_, ?_, ?_, ?_⟩
  · intro v
    cases v with
    | nil => simp [is_falsey]
    | number q => by_cases hq : q = 0 <;> simp [is_falsey, hq]
    | boolean b => cases b <;> simp [is_falsey]
    | string s =>
        by_cases hs : s = "" <;> simp [is_falsey, String.isEmpty_iff, hs]
    | function a d => simp [is_falsey]
  · intro v
    cases v with
    | nil => simp [is_falsey]
    | number q => by_cases hq : q = 0 <;> simp [is_falsey, hq]
    | boolean b => cases b <;> simp [is_falsey]
    | string s =>
        by_cases hs : s = "" <;> simp [is_falsey, String.isEmpty_iff, hs]
    | function a d => simp [is_falsey]
  · intro a d; rfl
  · intro fn pc st a d h hp
    simp only [step, h, OpCode.of_u8]
    norm_num
    simp [hp, is_falsey]
  · intro fn pc st st1 v b h hp hf
    simp only [step, h, OpCode.of_u8]
    simp only [hp]
    cases v with
    | nil => simp [is_falsey] at hf; simp [hf]
    | number q =>
        by_cases hq : q = 0 <;> simp [is_falsey, hq] at hf <;> simp [hq, ← hf]
    | boolean c => simp [is_falsey] at hf; subst hf; simp
    | string s =>
        cases hse : s.isEmpty <;> simp [is_falsey, hse] at hf <;>
          simp [hse, ← hf]
    | function a d => simp [is_falsey] at hf
  · intro fn pc st st1 a d h hp
    simp only [step, h, OpCode.of_u8]
    simp [hp]

/-- Witness for C4 at concrete inputs: `JumpIfFalse` over a function
value fails; `Not` over `3` pushes `false`; `Not` over a function value
fails. -/
theorem C4_falsey_rule_and_not_opcode_witness :
    step (Function.mk "f" 0 false [25, 9] (some false) []) 0
        ⟨[[.function 0 none]], [], [], [], []⟩ =
      some (.fail ⟨[[.function 0 none]], [], [], [], []⟩) ∧
    step (Function.mk "g" 0 false [2] (some false) []) 0
        ⟨[[.number 3]], [], [], [], []⟩ =
      (stackPush ⟨[[]], [], [], [], []⟩ (.boolean false)).map (.next 1 ·) ∧
    step (Function.mk "g" 0 false [2] (some false) []) 0
        ⟨[[.function 1 none]], [], [], [], []⟩ =
      some (.fail ⟨[[]], [], [], [], []⟩) := by
  refine ⟨?_, ?_, ?_⟩
  · exact C4_falsey_rule_and_not_opcode.2.2.2.1 _ 0 _ 0 none rfl rfl
  · exact C4_falsey_rule_and_not_opcode.2.2.2.2.1 _ 0 _ _ (.number 3) false
      rfl rfl (by decide)
  · exact C4_falsey_rule_and_not_opcode.2.2.2.2.2 _ 0 _ _ 1 none rfl rfl

/-! ### Stack-shape lemmas

The stack operations of `src/vm.rs` work on the last frame / last slot;
these lemmas evaluate them on a stack written as `base ++ [frame]`. -/

theorem stackPop_shape (st : VMState) (base : List (List Value))
    (fr : List Value) (v : Value) (h : st.stack = base ++ [fr ++ [v]]) :
    stackPop st = some (some v, { st with stack := base ++ [fr] }) := by
  simp [stackPop, h, List.getLast?_concat, List.dropLast_concat]

theorem stackPush_shape (st : VMState) (base : List (List Value))
    (fr : List Value) (v : Value) (h : st.stack = base ++ [fr]) :
    stackPush st v = some { st with stack := base ++ [fr ++ [v]] } := by
  simp [stackPush, h, List.getLast?_concat, List.dropLast_concat]

theorem stackPeek_shape (st : VMState) (base : List (List Value))
    (fr : List Value) (v : Value) (h : st.stack = base ++ [fr ++ [v]]) :
    stackPeek st = some (some v) := by
  simp [stackPeek, h, List.getLast?_concat]

/-! ### Dispatch lemmas

Each lemma reduces `step` to the arm the byte at `pc` selects. -/

theorem step_byte_equal (fn : Function) (pc : Nat) (st : VMState)
    (h : fn.codes.get? pc = some 9) :
    step fn pc st = stepBinCompare st pc (fun l r => valueEq l r) := by
  have hb : fn.codes[pc]? = some 9 := by simpa using h
  simp [step, hb, OpCode.of_u8]

theorem step_byte_not_equal (fn : Function) (pc : Nat) (st : VMState)
    (h : fn.codes.get? pc = some 18) :
    step fn pc st = stepBinCompare st pc (fun l r => !valueEq l r) := by
  have hb : fn.codes[pc]? = some 18 := by simpa using h
  simp [step, hb, OpCode.of_u8]

theorem step_byte_greater (fn : Function) (pc : Nat) (st : VMState)
    (h : fn.codes.get? pc = some 14) :
    step fn pc st = stepBinCompare st pc valueGt := by
  have hb : fn.codes[pc]? = some 14 := by simpa using h
  simp [step, hb, OpCode.of_u8]

theorem step_byte_greater_equal (fn : Function) (pc : Nat) (st : VMState)
    (h : fn.codes.get? pc = some 29) :
    step fn pc st = stepBinCompare st pc valueGe := by
  have hb : fn.codes[pc]? = some 29 := by simpa using h
  simp [step, hb, OpCode.of_u8]

theorem step_byte_less (fn : Function) (pc : Nat) (st : VMState)
    (h : fn.codes.get? pc = some 7) :
    step fn pc st = stepBinCompare st pc valueLt := by
  have hb : fn.codes[pc]? = some 7 := by simpa using h
  simp [step, hb, OpCode.of_u8]

theorem step_byte_less_equal (fn : Function) (pc : Nat) (st : VMState)
    (h : fn.codes.get? pc = some 22) :
    step fn pc st = stepBinCompare st pc valueLe := by
  have hb : fn.codes[pc]? = some 22 := by simpa using h
  simp [step, hb, OpCode.of_u8]

theorem step_byte_add (fn : Function) (pc : Nat) (st : VMState)
    (h : fn.codes.get? pc = some 0) :
    step fn pc st = stepBinNumber st pc (· + ·) := by
  have hb : fn.codes[pc]? = some 0 := by simpa using h
  simp [step, hb, OpCode.of_u8]

theorem step_byte_multiply (fn : Function) (pc : Nat) (st : VMState)
    (h : fn.codes.get? pc = some 17) :
    step fn pc st = stepBinNumber st pc (· * ·) := by
  have hb : fn.codes[pc]? = some 17 := by simpa using h
  simp [step, hb, OpCode.of_u8]

theorem step_byte_rem (fn : Function) (pc : Nat) (st : VMState)
    (h : fn.codes.get? pc = some 4) :
    step fn pc st = stepBinNumber st pc ratRem := by
  have hb : fn.codes[pc]? = some 4 := by simpa using h
  simp [step, hb, OpCode.of_u8]

theorem step_byte_divide (fn : Function) (pc : Nat) (st : VMState)
    (h : fn.codes.get? pc = some 11) :
    step fn pc st = stepBinNumber st pc (· / ·) := by
  have hb : fn.codes[pc]? = some 11 := by simpa using h
  simp [step, hb, OpCode.of_u8]

/-! ### Shapes of the shared binary-opcode bodies -/

theorem stepBinCompare_shape (st : VMState) (pc : Nat)
    (op : Value → Value → Bool) (base : List (List Value))
    (fr : List Value) (l r : Value)
    (h : st.stack = base ++ [fr ++ [l, r]]) :
    stepBinCompare st pc op =
      some (.next (pc + 1)
        { st with stack := base ++ [fr ++ [.boolean (op l r)]] }) := by
  have h1 : st.stack = base ++ [(fr ++ [l]) ++ [r]] := by simpa using h
  have e1 := stackPop_shape st base (fr ++ [l]) r h1
  have e2 := stackPop_shape { st with stack := base ++ [fr ++ [l]] }
    base fr l rfl
  have e3 := stackPush_shape { st with stack := base ++ [fr] }
    base fr (.boolean (op l r)) rfl
  simp [stepBinCompare, e1, e2, e3]

theorem stepBinNumber_shape_numbers (st : VMState) (pc : Nat)
    (op : ℚ → ℚ → ℚ) (base : List (List Value)) (fr : List Value) (a b : ℚ)
    (h : st.stack = base ++ [fr ++ [.number a, .number b]]) :
    stepBinNumber st pc op =
      some (.next (pc + 1)
        { st with stack := base ++ [fr ++ [.number (op a b)]] }) := by
  have h1 : st.stack = base ++ [(fr ++ [.number a]) ++ [.number b]] := by
    simpa using h
  have e1 := stackPop_shape st base (fr ++ [.number a]) _ h1
  have e2 := stackPop_shape { st with stack := base ++ [fr ++ [.number a]] }
    base fr (.number a) rfl
  have e3 := stackPush_shape { st with stack := base ++ [fr] }
    base fr (.number (op a b)) rfl
  simp [stepBinNumber, popNumber, e1, e2, e3]

theorem stepBinNumber_shape_right_not_number (st : VMState) (pc : Nat)
    (op : ℚ → ℚ → ℚ) (base : List (List Value)) (fr : List Value)
    (l r : Value) (h : st.stack = base ++ [fr ++ [l, r]])
    (hr : ∀ q, r ≠ .number q) :
    stepBinNumber st pc op =
      some (.fail { st with stack := base ++ [fr ++ [l]] }) := by
  have h1 : st.stack = base ++ [(fr ++ [l]) ++ [r]] := by simpa using h
  have e1 := stackPop_shape st base (fr ++ [l]) r h1
  cases r with
  | number q => exact absurd rfl (hr q)
  | nil => simp [stepBinNumber, popNumber, e1]
  | boolean b => simp [stepBinNumber, popNumber, e1]
  | string s => simp [stepBinNumber, popNumber, e1]
  | function a d => simp [stepBinNumber, popNumber, e1]

theorem stepBinNumber_shape_left_not_number (st : VMState) (pc : Nat)
    (op : ℚ → ℚ → ℚ) (base : List (List Value)) (fr : List Value)
    (l : Value) (b : ℚ) (h : st.stack = base ++ [fr ++ [l, .number b]])
    (hl : ∀ q, l ≠ .number q) :
    stepBinNumber st pc op =
      some (.fail { st with stack := base ++ [fr] }) := by
  have h1 : st.stack = base ++ [(fr ++ [l]) ++ [.number b]] := by simpa using h
  have e1 := stackPop_shape st base (fr ++ [l]) _ h1
  have e2 := stackPop_shape { st with stack := base ++ [fr ++ [l]] }
    base fr l rfl
  cases l with
  | number q => exact absurd rfl (hl q)
  | nil => simp [stepBinNumber, popNumber, e1, e2]
  | boolean c => simp [stepBinNumber, popNumber, e1, e2]
  | string s => simp [stepBinNumber, popNumber, e1, e2]
  | function a d => simp [stepBinNumber, popNumber, e1, e2]

/-- C5, amended.  Every binary opcode pops the right operand, then the
left operand, and pushes its result onto the same frame.  The four
numeric opcodes (`Add` 0, `Multiply` 17, `Rem` 4, `Divide` 11) require
both operands to be numbers, and yield a runtime error otherwise — after
popping the offending operands, which makes the right-then-left pop
order observable.  The six comparison opcodes never fail on a type
mismatch: operands of different types are ordered by the fixed
cross-type priority of `Value::partial_cmp`, and `Concat` renders any
operands to text; both always push a result. -/
theorem C5_binary_ops_pop_order_and_type_rules :
    ∀ (fn : Function) (pc : Nat) (st : VMState) (base : List (List Value))
      (fr : List Value) (l r : Value),
      st.stack = base ++ [fr ++ [l, r]] →
      ((fn.codes.get? pc = some 9 → step fn pc st =
          some (.next (pc + 1)
            { st with stack := base ++ [fr ++ [.boolean (valueEq l r)]] })) ∧
       (fn.codes.get? pc = some 18 → step fn pc st =
          some (.next (pc + 1)
            { st with stack := base ++ [fr ++ [.boolean (!valueEq l r)]] })) ∧
       (fn.codes.get? pc = some 14 → step fn pc st =
          some (.next (pc + 1)
            { st with stack := base ++ [fr ++ [.boolean (valueGt l r)]] })) ∧
       (fn.codes.get? pc = some 29 → step fn pc st =
          some (.next (pc + 1)
            { st with stack := base ++ [fr ++ [.boolean (valueGe l r)]] })) ∧
       (fn.codes.get? pc = some 7 → step fn pc st =
          some (.next (pc + 1)
            { st with stack := base ++ [fr ++ [.boolean (valueLt l r)]] })) ∧
       (fn.codes.get? pc = some 22 → step fn pc st =
          some (.next (pc + 1)
            { st with stack := base ++ [fr ++ [.boolean (valueLe l r)]] }))) ∧
      (fn.codes.get? pc = some 10 → step fn pc st =
          some (.next (pc + 1)
            { st with stack := base ++
              [fr ++ [.string (valueToString l ++ valueToString r)]] })) ∧
      (∀ a b : ℚ, l = .number a → r = .number b →
        (fn.codes.get? pc = some 0 → step fn pc st =
          some (.next (pc + 1)
            { st with stack := base ++ [fr ++ [.number (a + b)]] })) ∧
        (fn.codes.get? pc = some 17 → step fn pc st =
          some (.next (pc + 1)
            { st with stack := base ++ [fr ++ [.number (a * b)]] })) ∧
        (fn.codes.get? pc = some 4 → step fn pc st =
          some (.next (pc + 1)
            { st with stack := base ++ [fr ++ [.number (ratRem a b)]] })) ∧
        (fn.codes.get? pc = some 11 → step fn pc st =
          some (.next (pc + 1)
            { st with stack := base ++ [fr ++ [.number (a / b)]] }))) ∧
      ((∀ q, r ≠ .number q) →
        (fn.codes.get? pc = some 0 ∨ fn.codes.get? pc = some 17 ∨
         fn.codes.get? pc = some 4 ∨ fn.codes.get? pc = some 11) →
        step fn pc st = some (.fail { st with stack := base ++ [fr ++ [l]] })) ∧
      ((∀ q, l ≠ .number q) → ∀ b : ℚ, r = .number b →
        (fn.codes.get? pc = some 0 ∨ fn.codes.get? pc = some 17 ∨
         fn.codes.get? pc = some 4 ∨ fn.codes.get? pc = some 11) →
        step fn pc st = some (.fail { st with stack := base ++ [fr] })) := by
  intro fn pc st base fr l r h
  refine ⟨⟨?_, ?_, ?_, ?_, ?_, ?_⟩, ?_, ?_, ?_, ?_⟩
  · intro hc
    rw [step_byte_equal fn pc st hc, stepBinCompare_shape st pc _ base fr l r h]
  · intro hc
    rw [step_byte_not_equal fn pc st hc,
      stepBinCompare_shape st pc _ base fr l r h]
  · intro hc
    rw [step_byte_greater fn pc st hc,
      stepBinCompare_shape st pc _ base fr l r h]
  · intro hc
    rw [step_byte_greater_equal fn pc st hc,
      stepBinCompare_shape st pc _ base fr l r h]
  · intro hc
    rw [step_byte_less fn pc st hc, stepBinCompare_shape st pc _ base fr l r h]
  · intro hc
    rw [step_byte_less_equal fn pc st hc,
      stepBinCompare_shape st pc _ base fr l r h]
  · intro hc
    have hb : fn.codes[pc]? = some 10 := by simpa using hc
    have h1 : st.stack = base ++ [(fr ++ [l]) ++ [r]] := by simpa using h
    have e1 := stackPop_shape st base (fr ++ [l]) r h1
    have e2 := stackPop_shape { st with stack := base ++ [fr ++ [l]] }
      base fr l rfl
    have e3 := stackPush_shape { st with stack := base ++ [fr] }
      base fr (.string (valueToString l ++ valueToString r)) rfl
    simp [step, hb, OpCode.of_u8, e1, e2, e3]
  · intro a b hl hr
    subst hl; subst hr
    refine ⟨?_, ?_, ?_, ?_⟩
    · intro hc
      rw [step_byte_add fn pc st hc,
        stepBinNumber_shape_numbers st pc _ base fr a b h]
    · intro hc
      rw [step_byte_multiply fn pc st hc,
        stepBinNumber_shape_numbers st pc _ base fr a b h]
    · intro hc
      rw [step_byte_rem fn pc st hc,
        stepBinNumber_shape_numbers st pc _ base fr a b h]
    · intro hc
      rw [step_byte_divide fn pc st hc,
        stepBinNumber_shape_numbers st pc _ base fr a b h]
  · intro hr hc
    rcases hc with hc | hc | hc | hc
    · rw [step_byte_add fn pc st hc,
        stepBinNumber_shape_right_not_number st pc _ base fr l r h hr]
    · rw [step_byte_multiply fn pc st hc,
        stepBinNumber_shape_right_not_number st pc _ base fr l r h hr]
    · rw [step_byte_rem fn pc st hc,
        stepBinNumber_shape_right_not_number st pc _ base fr l r h hr]
    · rw [step_byte_divide fn pc st hc,
        stepBinNumber_shape_right_not_number st pc _ base fr l r h hr]
  · intro hl b hr hc
    subst hr
    rcases hc with hc | hc | hc | hc
    · rw [step_byte_add fn pc st hc,
        stepBinNumber_shape_left_not_number st pc _ base fr l b h hl]
    · rw [step_byte_multiply fn pc st hc,
        stepBinNumber_shape_left_not_number st pc _ base fr l b h hl]
    · rw [step_byte_rem fn pc st hc,
        stepBinNumber_shape_left_not_number st pc _ base fr l b h hl]
    · rw [step_byte_divide fn pc st hc,
        stepBinNumber_shape_left_not_number st pc _ base fr l b h hl]

/-- Witness for C5 at concrete inputs: `Less` on `1` and `"a"` pushes
`true` (cross-type: numbers order below strings, no error); `Add` on `2`
and `3` pushes `5`; `Add` on `1` and `"a"` fails having popped only the
right operand; `Add` on `"a"` and `1` fails having popped both. -/
theorem C5_binary_ops_pop_order_and_type_rules_witness :
    step (Function.mk "f" 0 false [7] (some false) []) 0
        ⟨[[.number 1, .string "a"]], [], [], [], []⟩ =
      some (.next 1 ⟨[[.boolean true]], [], [], [], []⟩) ∧
    step (Function.mk "f" 0 false [0] (some false) []) 0
        ⟨[[.number 2, .number 3]], [], [], [], []⟩ =
      some (.next 1 ⟨[[.number 5]], [], [], [], []⟩) ∧
    step (Function.mk "f" 0 false [0] (some false) []) 0
        ⟨[[.number 1, .string "a"]], [], [], [], []⟩ =
      some (.fail ⟨[[.number 1]], [], [], [], []⟩) ∧
    step (Function.mk "f" 0 false [0] (some false) []) 0
        ⟨[[.string "a", .number 1]], [], [], [], []⟩ =
      some (.fail ⟨[[]], [], [], [], []⟩) := by
  refine ⟨?_, ?_, ?_, ?_⟩
  · have h := (C5_binary_ops_pop_order_and_type_rules
      (Function.mk "f" 0 false [7] (some false) []) 0
      ⟨[[.number 1, .string "a"]], [], [], [], []⟩ [] [] (.number 1)
      (.string "a") rfl).1.2.2.2.2.1 rfl
    simpa using h
  · have h := ((C5_binary_ops_pop_order_and_type_rules
      (Function.mk "f" 0 false [0] (some false) []) 0
      ⟨[[.number 2, .number 3]], [], [], [], []⟩ [] [] (.number 2)
      (.number 3) rfl).2.2.1 2 3 rfl rfl).1 rfl
    have h2 : (2 + 3 : ℚ) = 5 := by norm_num
    simpa [h2] using h
  · have h := (C5_binary_ops_pop_order_and_type_rules
      (Function.mk "f" 0 false [0] (some false) []) 0
      ⟨[[.number 1, .string "a"]], [], [], [], []⟩ [] [] (.number 1)
      (.string "a") rfl).2.2.2.1 (fun q hq => by cases hq) (Or.inl rfl)
    simpa using h
  · have h := (C5_binary_ops_pop_order_and_type_rules
      (Function.mk "f" 0 false [0] (some false) []) 0
      ⟨[[.string "a", .number 1]], [], [], [], []⟩ [] [] (.string "a")
      (.number 1) rfl).2.2.2.2 (fun q hq => by cases hq) 1 rfl (Or.inl rfl)
    simpa using h

/-- C7, amended.  `SetGlobal` peeks the top of the current frame without
popping it (the stack of the resulting state is unchanged) and inserts
the peeked value into the globals map under the operand name.  When the
name was already bound the step succeeds with the binding updated; when
it was absent the step yields a runtime error — but the insert has
already happened, so the erroring state's globals contain the new
binding (the source checks `HashMap::insert`'s returned previous value
only after inserting). -/
theorem C7_set_global_peek_update_requires_existing :
    ∀ (fn : Function) (pc : Nat) (st : VMState) (address : Nat)
      (name : String) (v : Value),
      fn.codes.get? pc = some 23 →
      fn.codes.get? (pc + 2) = some address →
      st.constants.get? address = some (.string name) →
      stackPeek st = some (some v) →
      (st.globals.find? (fun e => e.1 == name) = none →
        step fn pc st =
          some (.fail { st with globals := st.globals ++ [(name, v)] })) ∧
      (∀ old, st.globals.find? (fun e => e.1 == name) = some old →
        step fn pc st =
          some (.next (pc + 3)
            { st with globals :=
                st.globals.map fun e =>
                  if e.1 == name then (name, v) else e })) := by
  intro fn pc st address name v h23 haddr hconst hpeek
  have hb : fn.codes[pc]? = some 23 := by simpa using h23
  have hb2 : fn.codes[pc + 2]? = some address := by simpa using haddr
  have hc : st.constants[address]? = some (.string name) := by simpa using hconst
  constructor
  · intro hfind
    simp [step, hb, OpCode.of_u8, hb2, hc, hpeek, globalsInsert, hfind]
  · intro old hfind
    simp [step, hb, OpCode.of_u8, hb2, hc, hpeek, globalsInsert, hfind]

/-- Witness for C7 at concrete inputs: from empty globals the step
fails but inserts; with `"x"` already bound it succeeds, updates, and
leaves the stack as it was. -/
theorem C7_set_global_peek_update_requires_existing_witness :
    step (Function.mk "f" 0 false [23, 16, 0] (some false) []) 0
        ⟨[[.number 7]], [.string "x"], [], [], []⟩ =
      some (.fail ⟨[[.number 7]], [.string "x"], [("x", .number 7)], [], []⟩) ∧
    step (Function.mk "f" 0 false [23, 16, 0] (some false) []) 0
        ⟨[[.number 7]], [.string "x"], [("x", .nil)], [], []⟩ =
      some (.next 3
        ⟨[[.number 7]], [.string "x"], [("x", .number 7)], [], []⟩) := by
  constructor
  · have h := (C7_set_global_peek_update_requires_existing
      (Function.mk "f" 0 false [23, 16, 0] (some false) []) 0
      ⟨[[.number 7]], [.string "x"], [], [], []⟩ 0 "x" (.number 7)
      rfl rfl rfl rfl).1 rfl
    simpa using h
  · have h := (C7_set_global_peek_update_requires_existing
      (Function.mk "f" 0 false [23, 16, 0] (some false) []) 0
      ⟨[[.number 7]], [.string "x"], [("x", .nil)], [], []⟩ 0 "x" (.number 7)
      rfl rfl rfl rfl).2 ("x", .nil) rfl
    simpa using h

/-! ### Lemmas about `Chunk::set` on lists -/

theorem chunkSet_of_lt (storage : List α) (address : Nat) (item : α)
    (h : address < storage.length) :
    chunkSet storage address item =
      some (storage.take address ++ item :: storage.drop (address + 1)) := by
  simp [chunkSet, h]

theorem chunkSet_result_length (storage : List α) (address : Nat) (item : α)
    (h : address < storage.length) :
    (storage.take address ++ item :: storage.drop (address + 1)).length =
      storage.length := by
  simp only [List.length_append, List.length_cons, List.length_take,
    List.length_drop]
  omega

theorem chunkSet_result_get_self (storage : List α) (address : Nat) (item : α)
    (h : address < storage.length) :
    (storage.take address ++ item :: storage.drop (address + 1)).get? address =
      some item := by
  have ht : (storage.take address).length = address := by
    simp [List.length_take]; omega
  rw [List.get?_eq_getElem?, List.getElem?_append_right (by omega)]
  simp [ht]

theorem chunkSet_result_get_lt (storage : List α) (address i : Nat) (item : α)
    (h : address < storage.length) (hi : i < address) :
    (storage.take address ++ item :: storage.drop (address + 1)).get? i =
      storage.get? i := by
  have ht : (storage.take address).length = address := by
    simp [List.length_take]; omega
  rw [List.get?_eq_getElem?, List.getElem?_append_left (by omega),
    List.getElem?_take, List.get?_eq_getElem?]
  simp [hi]

/-- The operand index `add_jump` returns is the slot right after the
jump opcode. -/
theorem add_jump_operand_index (f0 : Function) (if_false : Bool) :
    (f0.add_jump if_false).2 = f0.codes.length + 1 := by
  cases if_false <;>
    simp [Function.add_jump, Function.add_op, Function.add_address,
      Function.codes]

/-- The code `add_jump` emits: the jump opcode byte, then the `Invalid`
placeholder (`255`). -/
theorem add_jump_codes (f0 : Function) (if_false : Bool) :
    (f0.add_jump if_false).1.codes =
      f0.codes ++ [if if_false then 25 else 6, 255] := by
  cases if_false <;>
    simp [Function.add_jump, Function.add_op, Function.add_address,
      Function.codes, OpCode.to_u8]

/-- One `Jump` dispatch step: read the displacement operand and advance
the cursor past it. -/
theorem step_byte_jump (fn : Function) (pc : Nat) (st : VMState) (size : Nat)
    (h : fn.codes.get? pc = some 6) (h1 : fn.codes.get? (pc + 1) = some size) :
    step fn pc st = some (.next (pc + 2 + size) st) := by
  have hb : fn.codes[pc]? = some 6 := by simpa using h
  have hb1 : fn.codes[pc + 1]? = some size := by simpa using h1
  simp [step, hb, hb1, OpCode.of_u8]

/-- One `JumpIfFalse` dispatch step over a falsey top of stack. -/
theorem step_byte_jump_if_false_taken (fn : Function) (pc : Nat)
    (st : VMState) (size : Nat) (v : Value)
    (h : fn.codes.get? pc = some 25) (hp : stackPeek st = some (some v))
    (hf : is_falsey v = some true)
    (h1 : fn.codes.get? (pc + 1) = some size) :
    step fn pc st = some (.next (pc + 2 + size) st) := by
  have hb : fn.codes[pc]? = some 25 := by simpa using h
  have hb1 : fn.codes[pc + 1]? = some size := by simpa using h1
  simp [step, hb, hb1, OpCode.of_u8, hp, hf]

/-- C3.  For a forward jump emitted by `add_jump` and patched — after any
further emission `extra` — by `patch_jump`, the displacement written into
the operand slot is exactly `code length at patch time − operand address
− 1`; patching keeps the code length; and a VM step that executes the
patched jump (reading the operand and advancing the cursor past that
many further words) lands exactly at the patch-time end of the code,
i.e. on the first instruction emitted after the patch — for `Jump`
always, and for `JumpIfFalse` whenever the probed top of stack is
falsey. -/
theorem C3_patch_jump_displacement_and_landing :
    ∀ (f0 : Function) (if_false : Bool) (extra : List Nat) (f2 : Function),
      f2.codes = (f0.add_jump if_false).1.codes ++ extra →
      ∃ f3, f2.patch_jump (f0.add_jump if_false).2 = some f3 ∧
        f3.codes.get? (f0.add_jump if_false).2 =
          some (f2.codes.length - (f0.add_jump if_false).2 - 1) ∧
        f3.codes.length = f2.codes.length ∧
        (f0.add_jump if_false).2 + 1 +
          (f2.codes.length - (f0.add_jump if_false).2 - 1) =
            f2.codes.length ∧
        (if_false = false →
          ∀ st, step f3 f0.codes.length st =
            some (.next f2.codes.length st)) ∧
        (if_false = true →
          ∀ st v, stackPeek st = some (some v) → is_falsey v = some true →
            step f3 f0.codes.length st =
              some (.next f2.codes.length st)) := by
  intro f0 if_false extra f2 h2
  have haddr := add_jump_operand_index f0 if_false
  have hcodes : f2.codes =
      f0.codes ++ [if if_false then 25 else 6, 255] ++ extra := by
    rw [h2, add_jump_codes]
  have hlen : f2.codes.length = f0.codes.length + 2 + extra.length := by
    rw [hcodes]; simp; omega
  have hlt : (f0.add_jump if_false).2 < f2.codes.length := by
    rw [haddr]; omega
  have hpatch := chunkSet_of_lt f2.codes (f0.add_jump if_false).2
    (f2.codes.length - (f0.add_jump if_false).2 - 1) hlt
  refine ⟨Function.mk f2.name f2.arity f2.is_loop
    (f2.codes.take (f0.add_jump if_false).2 ++
      (f2.codes.length - (f0.add_jump if_false).2 - 1) ::
        f2.codes.drop ((f0.add_jump if_false).2 + 1))
    f2.has_return f2.captures, ?_, ?_, ?_, ?_, ?_, ?_⟩
  · simp [Function.patch_jump, hpatch]
  · simpa [Function.codes] using
      chunkSet_result_get_self f2.codes (f0.add_jump if_false).2 _ hlt
  · simpa [Function.codes] using
      chunkSet_result_length f2.codes (f0.add_jump if_false).2
        (f2.codes.length - (f0.add_jump if_false).2 - 1) hlt
  · omega
  · intro hif st
    have hop : (f2.codes.take (f0.add_jump if_false).2 ++
        (f2.codes.length - (f0.add_jump if_false).2 - 1) ::
          f2.codes.drop ((f0.add_jump if_false).2 + 1)).get?
            f0.codes.length = some 6 := by
      rw [chunkSet_result_get_lt f2.codes (f0.add_jump if_false).2
        f0.codes.length _ hlt (by omega)]
      rw [hcodes, List.get?_eq_getElem?, List.append_assoc,
        List.getElem?_append_right (Nat.le_refl _)]
      simp [hif]
    have hdisp : (f2.codes.take (f0.add_jump if_false).2 ++
        (f2.codes.length - (f0.add_jump if_false).2 - 1) ::
          f2.codes.drop ((f0.add_jump if_false).2 + 1)).get?
            (f0.codes.length + 1) =
        some (f2.codes.length - (f0.add_jump if_false).2 - 1) := by
      rw [← haddr]
      exact chunkSet_result_get_self f2.codes (f0.add_jump if_false).2 _ hlt
    have hop2 : (Function.mk f2.name f2.arity f2.is_loop
        (f2.codes.take (f0.add_jump if_false).2 ++
          (f2.codes.length - (f0.add_jump if_false).2 - 1) ::
            f2.codes.drop ((f0.add_jump if_false).2 + 1))
        f2.has_return f2.captures).codes.get? f0.codes.length = some 6 := hop
    have hdisp2 : (Function.mk f2.name f2.arity f2.is_loop
        (f2.codes.take (f0.add_jump if_false).2 ++
          (f2.codes.length - (f0.add_jump if_false).2 - 1) ::
            f2.codes.drop ((f0.add_jump if_false).2 + 1))
        f2.has_return f2.captures).codes.get? (f0.codes.length + 1) =
        some (f2.codes.length - (f0.add_jump if_false).2 - 1) := hdisp
    rw [step_byte_jump _ f0.codes.length st _ hop2 hdisp2]
    rw [show f0.codes.length + 2 +
      (f2.codes.length - (f0.add_jump if_false).2 - 1) =
        f2.codes.length from by omega]
  · intro hif st v hp hf
    have hop : (f2.codes.take (f0.add_jump if_false).2 ++
        (f2.codes.length - (f0.add_jump if_false).2 - 1) ::
          f2.codes.drop ((f0.add_jump if_false).2 + 1)).get?
            f0.codes.length = some 25 := by
      rw [chunkSet_result_get_lt f2.codes (f0.add_jump if_false).2
        f0.codes.length _ hlt (by omega)]
      rw [hcodes, List.get?_eq_getElem?, List.append_assoc,
        List.getElem?_append_right (Nat.le_refl _)]
      simp [hif]
    have hdisp : (f2.codes.take (f0.add_jump if_false).2 ++
        (f2.codes.length - (f0.add_jump if_false).2 - 1) ::
          f2.codes.drop ((f0.add_jump if_false).2 + 1)).get?
            (f0.codes.length + 1) =
        some (f2.codes.length - (f0.add_jump if_false).2 - 1) := by
      rw [← haddr]
      exact chunkSet_result_get_self f2.codes (f0.add_jump if_false).2 _ hlt
    have hop2 : (Function.mk f2.name f2.arity f2.is_loop
        (f2.codes.take (f0.add_jump if_false).2 ++
          (f2.codes.length - (f0.add_jump if_false).2 - 1) ::
            f2.codes.drop ((f0.add_jump if_false).2 + 1))
        f2.has_return f2.captures).codes.get? f0.codes.length = some 25 := hop
    have hdisp2 : (Function.mk f2.name f2.arity f2.is_loop
        (f2.codes.take (f0.add_jump if_false).2 ++
          (f2.codes.length - (f0.add_jump if_false).2 - 1) ::
            f2.codes.drop ((f0.add_jump if_false).2 + 1))
        f2.has_return f2.captures).codes.get? (f0.codes.length + 1) =
        some (f2.codes.length - (f0.add_jump if_false).2 - 1) := hdisp
    rw [step_byte_jump_if_false_taken _ f0.codes.length st _ v hop2 hp hf
      hdisp2]
    rw [show f0.codes.length + 2 +
      (f2.codes.length - (f0.add_jump if_false).2 - 1) =
        f2.codes.length from by omega]

/-- Witness for C3 at a concrete emission: a `Jump` patched over two
further words jumps to the end of the patched region, and a patched
`JumpIfFalse` over a falsey `0` does the same. -/
theorem C3_patch_jump_displacement_and_landing_witness :
    (∃ f3, ((Function.new "h" 0).add_jump false).1.patch_jump
        ((Function.new "h" 0).add_jump false).2 = some f3) ∧
    (∃ f3, (((Function.new "h" 0).add_jump true).1.add_op .Nil).patch_jump
        ((Function.new "h" 0).add_jump true).2 = some f3 ∧
      step f3 0 ⟨[[.number 0]], [], [], [], []⟩ =
        some (.next 3 ⟨[[.number 0]], [], [], [], []⟩)) := by
  constructor
  · obtain ⟨f3, hpj, -⟩ := C3_patch_jump_displacement_and_landing
      (Function.new "h" 0) false [] ((Function.new "h" 0).add_jump false).1
      (by simp)
    exact ⟨f3, hpj⟩
  · obtain ⟨f3, hpj, -, hlen, -, -, hland⟩ :=
      C3_patch_jump_displacement_and_landing
      (Function.new "h" 0) true [OpCode.Nil.to_u8]
      (((Function.new "h" 0).add_jump true).1.add_op .Nil)
      (by simp [Function.add_op, Function.codes])
    refine ⟨f3, hpj, ?_⟩
    have h := hland rfl ⟨[[.number 0]], [], [], [], []⟩ (.number 0) rfl
      (by decide)
    have hc : ((((Function.new "h" 0).add_jump true).1.add_op
        .Nil).codes).length = 3 := by
      simp [Function.new, Function.add_jump, Function.add_op,
        Function.add_address, Function.codes]
    rw [hc] at h
    simpa [Function.new, Function.codes] using h

/-- Finding in a filtered list is finding with the conjated predicate. -/
theorem find?_filter_eq (l : List α) (p q : α → Bool) :
    (l.filter p).find? q = l.find? (fun a => p a && q a) := by
  induction l with
  | nil => rfl
  | cons x xs ih =>
      by_cases hp : p x
      · by_cases hq : q x <;>
          simp [List.filter_cons, hp, List.find?_cons, hq, ih]
      · simp [List.filter_cons, hp, List.find?_cons, ih]

/-- A value whose function-name test succeeds is a function constant, so
the filter step of `get_function_from_constants` is absorbed by the name
test. -/
theorem isFunctionValue_and_nameIs (v : Value) (name : String) :
    (v.isFunctionValue && v.functionNameIs name) = v.functionNameIs name := by
  cases v with
  | function a d =>
      cases d <;> simp [Value.isFunctionValue, Value.functionNameIs]
  | nil => rfl
  | number q => rfl
  | boolean b => rfl
  | string s => rfl

/-- C10.  When a call's name is no native and no function-table entry
matches it with defining scope at most the requested scope, resolution
falls back to scanning the constant pool in order and returns the first
function constant bearing the name — the fallback takes no scope
parameter at all; only when that scan also fails does the `Call` arm
return a runtime error, and when it succeeds the call proceeds (here:
with matching arity, popping the arguments into a fresh frame). -/
theorem C10_call_resolution_constant_fallback :
    (∀ (st : VMState) (name : String) (scope : Nat),
      get_function_from_functions st name scope = none →
      resolve_function st name scope =
        (st.constants.find? (fun v => v.functionNameIs name)).bind
          Value.descriptorOf) ∧
    (∀ (st : VMState) (name : String),
      get_function_from_constants st name =
        (st.constants.find? (fun v => v.functionNameIs name)).bind
          Value.descriptorOf) ∧
    (∀ (fn : Function) (pc : Nat) (st : VMState) (a1 a2 a3 : Nat)
        (sq aq : ℚ) (name : String),
      fn.codes.get? pc = some 5 →
      fn.codes.get? (pc + 2) = some a1 →
      st.constants.get? a1 = some (.number sq) →
      fn.codes.get? (pc + 4) = some a2 →
      st.constants.get? a2 = some (.number aq) →
      fn.codes.get? (pc + 6) = some a3 →
      st.constants.get? a3 = some (.string name) →
      resolve_nif name = none →
      (resolve_function st name (ratAsU128 sq) = none →
        step fn pc st = some (.fail st)) ∧
      (∀ (g : Function) (vs : List Value) (st1 : VMState),
        resolve_function st name (ratAsU128 sq) = some g →
        g.arity = ratAsU128 aq →
        popN st (ratAsU128 aq) = some (vs, st1) →
        step fn pc st =
          some (.callFn g (pc + 7)
            { st1 with stack := st1.stack ++ [vs.reverse] }))) := by
  have hconsts : ∀ (st : VMState) (name : String),
      get_function_from_constants st name =
        (st.constants.find? (fun v => v.functionNameIs name)).bind
          Value.descriptorOf := by
    intro st name
    rw [get_function_from_constants, find?_filter_eq]
    simp only [isFunctionValue_and_nameIs]
  refine ⟨?_, hconsts, ?_⟩
  · intro st name scope hnone
    rw [resolve_function, hnone, hconsts]
  · intro fn pc st a1 a2 a3 sq aq name h5 ha1 hc1 ha2 hc2 ha3 hc3 hnif
    have hb : fn.codes[pc]? = some 5 := by simpa using h5
    have hb1 : fn.codes[pc + 2]? = some a1 := by simpa using ha1
    have hb2 : fn.codes[pc + 4]? = some a2 := by simpa using ha2
    have hb3 : fn.codes[pc + 6]? = some a3 := by simpa using ha3
    have hcc1 : st.constants[a1]? = some (.number sq) := by simpa using hc1
    have hcc2 : st.constants[a2]? = some (.number aq) := by simpa using hc2
    have hcc3 : st.constants[a3]? = some (.string name) := by simpa using hc3
    constructor
    · intro hres
      simp [step, hb, hb1, hb2, hb3, hcc1, hcc2, hcc3, OpCode.of_u8, hnif,
        hres]
    · intro g vs st1 hres harity hpop
      simp [step, hb, hb1, hb2, hb3, hcc1, hcc2, hcc3, OpCode.of_u8, hnif,
        hres, harity, hpop]

/-- Witness for C10 at concrete inputs: with an empty function table,
the name `"g"` (no native) resolves through the constant pool — first
function constant with that name — and the call enters it; the unknown
name `"nosuch"` makes the `Call` arm fail. -/
theorem C10_call_resolution_constant_fallback_witness :
    resolve_function
        ⟨[[]], [.number 0, .number 0, .string "g",
          .function 9 (some (Function.new "g" 0))], [], [], []⟩ "g" 0 =
      some (Function.new "g" 0) ∧
    step (Function.mk "f" 0 false [5, 16, 0, 16, 1, 16, 2] (some false) []) 0
        ⟨[[]], [.number 0, .number 0, .string "nosuch"], [], [], []⟩ =
      some (.fail ⟨[[]], [.number 0, .number 0, .string "nosuch"], [], [], []⟩) ∧
    step (Function.mk "f" 0 false [5, 16, 0, 16, 1, 16, 2] (some false) []) 0
        ⟨[[]], [.number 0, .number 0, .string "g",
          .function 9 (some (Function.new "g" 0))], [], [], []⟩ =
      some (.callFn (Function.new "g" 0) 7
        ⟨[[], []], [.number 0, .number 0, .string "g",
          .function 9 (some (Function.new "g" 0))], [], [], []⟩) := by
  refine ⟨?_, ?_, ?_⟩
  · have h := C10_call_resolution_constant_fallback.1
      ⟨[[]], [.number 0, .number 0, .string "g",
        .function 9 (some (Function.new "g" 0))], [], [], []⟩ "g" 0 rfl
    simpa [Value.functionNameIs, Value.descriptorOf] using h
  · exact (C10_call_resolution_constant_fallback.2.2
      (Function.mk "f" 0 false [5, 16, 0, 16, 1, 16, 2] (some false) []) 0
      ⟨[[]], [.number 0, .number 0, .string "nosuch"], [], [], []⟩ 0 1 2 0 0
      "nosuch" rfl rfl rfl rfl rfl rfl rfl rfl).1 rfl
  · have h := (C10_call_resolution_constant_fallback.2.2
      (Function.mk "f" 0 false [5, 16, 0, 16, 1, 16, 2] (some false) []) 0
      ⟨[[]], [.number 0, .number 0, .string "g",
        .function 9 (some (Function.new "g" 0))], [], [], []⟩ 0 1 2 0 0
      "g" rfl rfl rfl rfl rfl rfl rfl rfl).2 (Function.new "g" 0) [] _
      rfl rfl rfl
    simpa using h

/-! ### Injectivity of the numeric rendering

`PartialEq for Value` compares rendered text, so "same payload ↔ equal"
for number values reduces to the injectivity of the rendering. -/

theorem digit_char_inj :
    ∀ a < 10, ∀ b < 10, Char.ofNat (a + 48) = Char.ofNat (b + 48) → a = b := by
  decide

theorem digit_char_isDigit : ∀ d < 10, (Char.ofNat (d + 48)).isDigit = true := by
  decide

theorem map_digit_char_inj (l1 l2 : List Nat) (h1 : ∀ d ∈ l1, d < 10)
    (h2 : ∀ d ∈ l2, d < 10)
    (h : l1.map (fun d => Char.ofNat (d + 48)) =
      l2.map (fun d => Char.ofNat (d + 48))) : l1 = l2 := by
  induction l1 generalizing l2 with
  | nil => cases l2 with
    | nil => rfl
    | cons y ys => simp at h
  | cons x xs ih =>
      cases l2 with
      | nil => simp at h
      | cons y ys =>
          simp only [List.map_cons, List.cons.injEq] at h
          have hx := h1 x (by simp)
          have hy := h2 y (by simp)
          have hxy := digit_char_inj x hx y hy h.1
          subst hxy
          rw [ih ys (fun d hd => h1 d (by simp [hd]))
            (fun d hd => h2 d (by simp [hd])) h.2]

theorem natRepr_inj (m n : Nat) (h : natRepr m = natRepr n) : m = n := by
  by_cases hm : m = 0 <;> by_cases hn : n = 0
  · rw [hm, hn]
  · exfalso
    rw [natRepr, if_pos hm, natRepr, if_neg hn] at h
    have h0 : (Nat.digits 10 n).map (fun d => Char.ofNat (d + 48)) = ['0'] := by
      have := congrArg List.reverse h
      simpa using this.symm
    have hd : Nat.digits 10 n = [0] := by
      have := map_digit_char_inj (Nat.digits 10 n) [0]
        (fun d hd => Nat.digits_lt_base (by norm_num) hd)
        (by simp) (by simpa using h0)
      exact this
    have := Nat.getLast_digit_ne_zero 10 hn
    simp [hd] at this
  · exfalso
    rw [natRepr, if_neg hm, natRepr, if_pos hn] at h
    have h0 : (Nat.digits 10 m).map (fun d => Char.ofNat (d + 48)) = ['0'] := by
      have := congrArg List.reverse h
      simpa using this
    have hd : Nat.digits 10 m = [0] := by
      exact map_digit_char_inj (Nat.digits 10 m) [0]
        (fun d hd => Nat.digits_lt_base (by norm_num) hd)
        (by simp) (by simpa using h0)
    have := Nat.getLast_digit_ne_zero 10 hm
    simp [hd] at this
  · rw [natRepr, if_neg hm, natRepr, if_neg hn] at h
    have hmaps := List.reverse_injective h
    have := map_digit_char_inj (Nat.digits 10 m) (Nat.digits 10 n)
      (fun d hd => Nat.digits_lt_base (by norm_num) hd)
      (fun d hd => Nat.digits_lt_base (by norm_num) hd) hmaps
    exact Nat.digits_inj_iff.mp this

theorem natRepr_all_digit (n : Nat) : ∀ c ∈ natRepr n, c.isDigit = true := by
  intro c hc
  rw [natRepr] at hc
  by_cases hn : n = 0
  · rw [if_pos hn] at hc
    simp at hc
    rw [hc]; rfl
  · rw [if_neg hn] at hc
    rw [List.mem_reverse, List.mem_map] at hc
    obtain ⟨d, hd, hcd⟩ := hc
    rw [← hcd]
    exact digit_char_isDigit d (Nat.digits_lt_base (by norm_num) hd)

theorem natRepr_ne_nil (n : Nat) : natRepr n ≠ [] := by
  rw [natRepr]
  by_cases hn : n = 0
  · rw [if_pos hn]; simp
  · rw [if_neg hn]
    simp [Nat.digits_ne_nil_iff_ne_zero, hn]

theorem isDigit_ne_slash (c : Char) (h : c.isDigit = true) : c ≠ '/' := by
  intro hc; rw [hc] at h; exact absurd h (by decide)

theorem isDigit_ne_minus (c : Char) (h : c.isDigit = true) : c ≠ '-' := by
  intro hc; rw [hc] at h; exact absurd h (by decide)

theorem append_sep_inj (x : Char) :
    ∀ (a c b d : List Char), (∀ y ∈ a, y ≠ x) → (∀ y ∈ c, y ≠ x) →
      a ++ x :: b = c ++ x :: d → a = c ∧ b = d := by
  intro a
  induction a with
  | nil =>
      intro c b d _ hc h
      cases c with
      | nil => simpa using h
      | cons z zs =>
          simp only [List.nil_append, List.cons_append,
            List.cons.injEq] at h
          exact absurd h.1.symm (hc z (by simp))
  | cons y ys ih =>
      intro c b d ha hc h
      cases c with
      | nil =>
          simp only [List.nil_append, List.cons_append,
            List.cons.injEq] at h
          exact absurd h.1 (ha y (by simp))
      | cons z zs =>
          simp only [List.cons_append, List.cons.injEq] at h
          obtain ⟨h1, h2⟩ := ih zs b d (fun w hw => ha w (by simp [hw]))
            (fun w hw => hc w (by simp [hw])) h.2
          exact ⟨by rw [h.1, h1], h2⟩

theorem numToString_inj (p q : ℚ) (h : numToString p = numToString q) :
    p = q := by
  have hdata := congrArg String.data h
  simp only [numToString] at hdata
  have hsign : (p.num < 0 ↔ q.num < 0) := by
    constructor
    · intro hp
      by_contra hq
      rw [if_pos hp, if_neg hq] at hdata
      obtain ⟨c, cs, hcs⟩ :
          ∃ c cs, natRepr q.num.natAbs = c :: cs := by
        cases hqr : natRepr q.num.natAbs with
        | nil => exact absurd hqr (natRepr_ne_nil _)
        | cons c cs => exact ⟨c, cs, rfl⟩
      rw [hcs] at hdata
      simp only [List.cons_append, List.nil_append, List.cons.injEq] at hdata
      exact absurd hdata.1.symm
        (isDigit_ne_minus c (natRepr_all_digit q.num.natAbs c
          (by rw [hcs]; simp)))
    · intro hq
      by_contra hp
      rw [if_neg hp, if_pos hq] at hdata
      obtain ⟨c, cs, hcs⟩ :
          ∃ c cs, natRepr p.num.natAbs = c :: cs := by
        cases hpr : natRepr p.num.natAbs with
        | nil => exact absurd hpr (natRepr_ne_nil _)
        | cons c cs => exact ⟨c, cs, rfl⟩
      rw [hcs] at hdata
      simp only [List.cons_append, List.nil_append, List.cons.injEq] at hdata
      exact absurd hdata.1
        (isDigit_ne_minus c (natRepr_all_digit p.num.natAbs c
          (by rw [hcs]; simp)))
  have hbody : natRepr p.num.natAbs ++ '/' :: natRepr p.den =
      natRepr q.num.natAbs ++ '/' :: natRepr q.den := by
    by_cases hp : p.num < 0
    · have hq := hsign.mp hp
      rw [if_pos hp, if_pos hq] at hdata
      simpa using hdata
    · have hq := fun hqq => hp (hsign.mpr hqq)
      rw [if_neg hp, if_neg (by exact fun hqq => hq hqq)] at hdata
      simpa using hdata
  obtain ⟨habs, hden⟩ := append_sep_inj '/' _ _ _ _
    (fun y hy => isDigit_ne_slash y (natRepr_all_digit _ y hy))
    (fun y hy => isDigit_ne_slash y (natRepr_all_digit _ y hy)) hbody
  have habs2 : p.num.natAbs = q.num.natAbs := natRepr_inj _ _ habs
  have hden2 : p.den = q.den := natRepr_inj _ _ hden
  have hnum : p.num = q.num := by
    by_cases hp : p.num < 0
    · have hq := hsign.mp hp
      omega
    · have hq : ¬q.num < 0 := fun hqq => hp (hsign.mpr hqq)
      omega
  exact Rat.ext hnum hden2

/-- C6, amended.  Equality of values is false across different type
tags; within a type it compares the rendered text of the payloads.  That
coincides with structural payload equality for `Nil`, booleans, strings
and (in the rational model) numbers — but not for function values, which
render as `name/arity` (or as the empty string when unmaterialized), so
any two function values with the same rendering are equal regardless of
their payloads. -/
theorem C6_value_equality_text_within_type :
    (∀ v w : Value, v.get_type ≠ w.get_type → valueEq v w = false) ∧
    valueEq .nil .nil = true ∧
    (∀ a b : Bool, valueEq (.boolean a) (.boolean b) = true ↔ a = b) ∧
    (∀ s t : String, valueEq (.string s) (.string t) = true ↔ s = t) ∧
    (∀ a b : ℚ, valueEq (.number a) (.number b) = true ↔ a = b) ∧
    (∀ (a1 a2 : Nat) (d1 d2 : Option Function),
      valueToString (.function a1 d1) = valueToString (.function a2 d2) →
      valueEq (.function a1 d1) (.function a2 d2) = true) := by
  refine ⟨?_, rfl, ?_, ?_, ?_, ?_⟩
  · intro v w h
    simp [valueEq, h]
  · intro a b
    cases a <;> cases b <;> simp [valueEq, valueToString, Value.get_type]
  · intro s t
    simp [valueEq, valueToString, Value.get_type]
  · intro a b
    constructor
    · intro h
      simp only [valueEq, Value.get_type, valueToString, if_true,
        beq_iff_eq] at h
      exact numToString_inj a b h
    · intro h
      rw [h]
      simp [valueEq]
  · intro a1 a2 d1 d2 h
    simp [valueEq, Value.get_type, h]

/-- Witness for C6 at concrete inputs: a number and a string are never
equal, and two function values sharing the descriptor (hence the
rendering) are equal whatever their addresses. -/
theorem C6_value_equality_text_within_type_witness :
    valueEq (.number 1) (.string "1") = false ∧
    valueEq (.function 1 (some (Function.new "g" 2)))
      (.function 2 (some (Function.new "g" 2))) = true := by
  constructor
  · exact C6_value_equality_text_within_type.1 (.number 1) (.string "1")
      (by simp [Value.get_type])
  · exact C6_value_equality_text_within_type.2.2.2.2.2 1 2
      (some (Function.new "g" 2)) (some (Function.new "g" 2)) rfl

end Lox
